import Mathlib

/-!
Verification development for the `md5crypt/animator` repository
(`src/Animator.ts`, class `Animator`).

The animator is a tick-driven per-entity state machine.  We give a shallow
embedding of the mutable instance state and of the methods `update`, `start`,
`stop`, `pause`, `resume` and the `currentState` accessor, translated line by
line from `src/Animator.ts`.  Times are modelled as rationals (the TypeScript
numbers are used for exact arithmetic on tick deltas in all the behaviour
claimed here; `Infinity`, produced only by `duration = 0`, is eliminated by
the explicit `duration = 0` disjunct below, exactly as it is consumed by the
single `progress >= 1` comparison in the source).

Callbacks: the `animation` callback and the `onStateChange` listener are
observers; each method returns, besides the new core state, the list of
observable events it produced (`animation` invocations with the progress
value they see, `setup` invocations, and `onStateChange` notifications).
The `setup` callback may additionally act on the instance: the source
re-checks the run flags because a callback "could have called stop() or
pause()", and the claims quantify over exactly those behaviours, so a setup
callback is modelled as one of the effects `noop`, `callStop` (calls
`stop()`) or `callPause` (calls `pause()`).  `transition` is either a fixed
string or a rule reading the instance state; `interrupt` is a rule only, as
in the source.
-/

set_option allowUnsafeReducibility true
attribute [semireducible] Rat.add Rat.sub Rat.mul Rat.inv Rat.div

/-- Observable events: an `animation` callback invocation (recording the
`progress` value the callback observes), a `setup` callback invocation, and
an `onStateChange.invoke` notification. -/
inductive Ev where
  | setup (state : String)
  | animation (state : String) (progress : ℚ)
  | notify (state : String)
deriving DecidableEq, Repr

abbrev Emit := List Ev

/-- Errors thrown by the source (`throw new Error(...)`). -/
inductive AnimError where
  | notRunning
  | stateMissing
  | nullState
  | stateNotFound (s : String)
  | iterationLimit
deriving DecidableEq, Repr

/-- The mutable fields of an `Animator` instance (`_startTime`, `_time`,
`_delta`, `_progress`, `_state` (by name), `_animating`, `_started`,
`_running`, `_paused`, membership in `runningSet`, and `timeScale`). -/
structure AnimCore where
  startTime : ℚ
  time : ℚ
  delta : ℚ
  progress : ℚ
  state : Option String
  animating : Bool
  started : Bool
  running : Bool
  paused : Bool
  inRegistry : Bool
  timeScale : ℚ
deriving DecidableEq, Repr

/-- What a `setup` callback does to its instance (the source re-checks
`started`/`paused` because "the callback could have called stop() or
pause()"). -/
inductive CbEffect where
  | noop
  | callStop
  | callPause
deriving DecidableEq, Repr

/-- The `transition` field: a fixed next-state name or a rule
`(context) => string | false` (`none` models `false`). -/
inductive TransRule where
  | fixed (s : String)
  | rule (f : AnimCore → Option String)

/-- A normalized state table entry (`InternalState`), with the constructor
defaults `duration=0, delayBefore=0, delayAfter=0, loop=false, overflow=true,
transition=()=>false`; the default `animation` callback is still invoked (we
always record the invocation event), `setup` is optional. -/
structure StateCfg where
  name : String
  duration : ℚ := 0
  delayBefore : ℚ := 0
  delayAfter : ℚ := 0
  loop : Bool := false
  overflow : Bool := true
  transition : TransRule := .rule (fun _ => none)
  interrupt : Option (AnimCore → Option String) := none
  setup : Option CbEffect := none

/-- The normalized state table `this.states`. -/
abbrev Cfg := List StateCfg

/-- `this.states[name]`. -/
def lookupState (cfg : Cfg) (n : String) : Option StateCfg :=
  cfg.find? (fun s => s.name == n)

/-- A freshly constructed instance (constructor field initialisation). -/
def initCore : AnimCore :=
  { startTime := 0, time := 0, delta := 0, progress := 0, state := none,
    animating := false, started := false, running := false, paused := false,
    inRegistry := false, timeScale := 1 }

/-- `Animator.stop(noStateChangeEvent)`. -/
def Animator.stop (c : AnimCore) (noStateChangeEvent : Bool := false) :
    AnimCore × Emit :=
  if c.started then
    let c := { c with inRegistry := false, paused := false, started := false,
                      running := false }
    match c.state with
    | none => (c, [])
    | some _ =>
        ({ c with state := none },
         if noStateChangeEvent then [] else [.notify "stop"])
  else (c, [])

/-- `Animator.pause()`. -/
def Animator.pause (c : AnimCore) : AnimCore × Emit :=
  if c.started && !c.paused then
    ({ c with inRegistry := false, paused := true }, [.notify "pause"])
  else (c, [])

/-- `Animator.resume()`. -/
def Animator.resume (c : AnimCore) : AnimCore :=
  if c.paused then { c with inRegistry := true, paused := false } else c

/-- `Animator.start(initialState)`; the thrown `state initial not found`
error is returned together with the instance state at throw time. -/
def Animator.start (cfg : Cfg) (c : AnimCore) (initialState : String) :
    AnimCore × Option AnimError :=
  if c.started = false ∨ c.paused then
    let c := { c with paused := false,
                      state := (lookupState cfg initialState).map (fun sc => sc.name) }
    match lookupState cfg initialState with
    | none => (c, some (.stateNotFound initialState))
    | some _ =>
        ({ c with started := true, running := false, inRegistry := true }, none)
  else (c, none)

/-- The `currentState` accessor (throws `not running` when `_state` is null). -/
def Animator.currentState (c : AnimCore) : Except AnimError String :=
  match c.state with
  | none => .error .notRunning
  | some s => .ok s

/-- Run a setup effect on the instance (what the callback's body does). -/
def applyEffect : CbEffect → AnimCore → AnimCore × Emit
  | .noop, c => (c, [])
  | .callStop, c => Animator.stop c
  | .callPause, c => Animator.pause c

/-- `state.setup?.(this, this.parameters)`. -/
def invokeSetup (sc : StateCfg) (c : AnimCore) : AnimCore × Emit :=
  match sc.setup with
  | none => (c, [])
  | some eff =>
      let r := applyEffect eff c
      (r.1, .setup sc.name :: r.2)

/-- `typeof state.transition == "string" ? state.transition :
state.transition(this, this.parameters)`. -/
def evalTransition : TransRule → AnimCore → Option String
  | .fixed s, _ => some s
  | .rule f, c => f c

/-- Outcome of one iteration of the `while (true)` resolution loop:
`ret` models `return` (and thrown errors), `cont` models `continue`. -/
inductive StepOut where
  | ret (c : AnimCore) (evs : Emit) (err : Option AnimError)
  | cont (c : AnimCore) (evs : Emit)
deriving DecidableEq, Repr

/-- Result of `Animator.update` (the new instance state, the events of this
tick, and the thrown error if any). -/
structure UpdResult where
  core : AnimCore
  evs : Emit
  err : Option AnimError
deriving DecidableEq, Repr

/-- Lines 250-264 of `Animator.ts`: resolving a transition to a named state
after natural exhaustion (overflow carry, target setup, flag re-check,
notification). `pre` carries the events already produced this iteration. -/
def natTransStep (pre : Emit) (current : ℚ) (c : AnimCore) (state : StateCfg)
    (s : String) (next : StateCfg) : StepOut :=
  let c := { c with progress := 0 }
  let c :=
    if c.animating && state.overflow then
      { c with startTime := c.startTime + state.duration + state.delayBefore
                            + state.delayAfter }
    else
      { c with startTime := current }
  let c := { c with state := some s }
  let r := invokeSetup next c
  let c := r.1
  if c.started = false ∨ c.paused then .ret c (pre ++ r.2) none
  else .cont { c with animating := true } (pre ++ r.2 ++ [.notify s])

/-- Lines 287-302 of `Animator.ts`: resolving an interrupt-driven transition
(always re-anchors the clock, notifies before re-checking `started` only). -/
def intTransStep (pre : Emit) (current : ℚ) (c : AnimCore) (s : String)
    (next : StateCfg) : StepOut :=
  let c := { c with progress := 0, startTime := current, state := some s }
  let r := invokeSetup next c
  let c := r.1
  let evs := pre ++ r.2 ++ [.notify s]
  if c.started = false then .ret c evs none
  else .cont { c with animating := true } evs

/-- Lines 265-275 of `Animator.ts`: the falsy-transition outcome (loop reset,
zero-duration loop re-anchor, or marking the phase not animating). -/
def noTransStep (pre : Emit) (current : ℚ) (c : AnimCore) (state : StateCfg) :
    StepOut :=
  if state.loop then
    let c := { c with progress := 0 }
    if state.duration ≤ 0 then
      .ret { c with startTime := current - state.delayBefore } pre none
    else
      .cont { c with startTime := c.startTime + state.duration + state.delayAfter } pre
  else .ret { c with animating := false } pre none

/-- Lines 237-249 and 265-275 of `Animator.ts`: dispatch on the value of the
`transition` field (`"stop"`, `"pause"`, a non-empty state name, or a falsy
value — `false` or the empty string). -/
def transDispatch (cfg : Cfg) (pre : Emit) (current : ℚ) (c : AnimCore)
    (state : StateCfg) : Option String → StepOut
  | some s =>
    if s = "stop" then
      let r := Animator.stop c
      .ret r.1 (pre ++ r.2) none
    else if s = "pause" then
      let r := Animator.pause { c with animating := false }
      .ret r.1 (pre ++ r.2) none
    else if s = "" then noTransStep pre current c state
    else
      match lookupState cfg s with
      | none => .ret c pre (some (.stateNotFound s))
      | some next => natTransStep pre current c state s next
  | none => noTransStep pre current c state

/-- Lines 280-304 of `Animator.ts`: dispatch on the value of the `interrupt`
rule (no `animating := false` on `"pause"`, and a falsy value just ends the
iteration). -/
def intDispatch (cfg : Cfg) (pre : Emit) (current : ℚ) (c : AnimCore) :
    Option String → StepOut
  | some s =>
    if s = "stop" then
      let r := Animator.stop c
      .ret r.1 (pre ++ r.2) none
    else if s = "pause" then
      let r := Animator.pause c
      .ret r.1 (pre ++ r.2) none
    else if s = "" then .ret c pre none
    else
      match lookupState cfg s with
      | none => .ret c pre (some (.stateNotFound s))
      | some next => intTransStep pre current c s next
  | none => .ret c pre none

/-- One iteration of the resolution loop, lines 224-306 of `Animator.ts`.
The source's `progress >= 1` test on
`state.duration ? (current - (startTime + delayBefore)) / duration : Infinity`
is rendered by the disjunction `duration = 0 ∨ 1 ≤ ...` (the only consumer of
the `Infinity` value). -/
def updateStep (cfg : Cfg) (current : ℚ) (c : AnimCore) : StepOut :=
  match c.state with
  | none => .ret c [] (some .nullState)
  | some sname =>
    match lookupState cfg sname with
    | none => .ret c [] (some .nullState)
    | some state =>
      if state.delayBefore > current - c.startTime then .ret c [] none
      else if c.animating = false ∨ state.duration = 0
              ∨ 1 ≤ (current - (c.startTime + state.delayBefore)) / state.duration then
        -- exhausted (or already not animating): force the final frame once
        let fa : AnimCore × Emit :=
          if c.progress = 1 then (c, [])
          else ({ c with progress := 1 }, [.animation sname 1])
        let c := fa.1
        if current - (c.startTime + state.delayBefore + state.duration) < state.delayAfter
        then .ret c fa.2 none
        else transDispatch cfg fa.2 current c state (evalTransition state.transition c)
      else
        -- still inside the active phase
        let p := (current - (c.startTime + state.delayBefore)) / state.duration
        let c := { c with progress := p }
        let evs : Emit := [.animation sname p]
        match state.interrupt with
        | none => .ret c evs none
        | some ir => intDispatch cfg evs current c (ir c)

/-- The `while (true)` loop with its decrement-first iteration guard:
`iterationLimit` starts at 1024, so 1023 loop bodies may run before the
`animator iteration limit reached` error is thrown on the 1024th entry.
`resolveLoop` run with fuel `n` executes at most `n` bodies. -/
def resolveLoop (cfg : Cfg) (current : ℚ) : Nat → AnimCore → UpdResult
  | 0, c => ⟨c, [], some .iterationLimit⟩
  | fuel + 1, c =>
    match updateStep cfg current c with
    | .ret c evs err => ⟨c, evs, err⟩
    | .cont c evs =>
      let r := resolveLoop cfg current fuel c
      ⟨r.core, evs ++ r.evs, r.err⟩

/-- `Animator.update(delta)`, lines 194-308 of `Animator.ts`. -/
def Animator.update (cfg : Cfg) (c : AnimCore) (delta : ℚ) : UpdResult :=
  let scaledDelta := delta * c.timeScale
  let current := c.time + scaledDelta
  let c := { c with delta := scaledDelta, time := current }
  if c.started = false then ⟨c, [], some .notRunning⟩
  else if c.running = false then
    let c := { c with running := true, startTime := current, animating := true,
                      started := true, progress := 0 }
    match c.state with
    | none => ⟨c, [], some .stateMissing⟩
    | some sname =>
      match lookupState cfg sname with
      | none => ⟨c, [], some .stateMissing⟩
      | some sc =>
        let r := invokeSetup sc c
        let c := r.1
        if c.started = false ∨ c.paused then ⟨c, r.2, none⟩
        else
          let r2 := resolveLoop cfg current 1023 c
          ⟨r2.core, r.2 ++ [.notify sname] ++ r2.evs, r2.err⟩
  else resolveLoop cfg current 1023 c

/-- Repeated ticks: apply `update` to each delta in turn, accumulating the
emitted events, and halting if an update throws. -/
def runUpdates (cfg : Cfg) : AnimCore × Emit → List ℚ → AnimCore × Emit
  | (c, evs), [] => (c, evs)
  | (c, evs), d :: ds =>
    let r := Animator.update cfg c d
    match r.err with
    | some _ => (r.core, evs ++ r.evs)
    | none => runUpdates cfg (r.core, evs ++ r.evs) ds

/-! ## Concrete state tables used by the claims -/

/-- Two states: `A` runs for 10 time units then transitions to `B`; `B` keeps
all defaults (zero duration, no transition, no loop). -/
def cfgAB : Cfg :=
  [ { name := "A", duration := 10, transition := .fixed "B" },
    { name := "B" } ]

/-- The C3 example: `A{duration:10, transition:"B"}`,
`B{duration:0, loop:false, transition:"stop"}`. -/
def cfgC3 : Cfg :=
  [ { name := "A", duration := 10, transition := .fixed "B" },
    { name := "B", transition := .fixed "stop" } ]

/-- `A` has an `interrupt` rule that always diverts to `B` mid-phase. -/
def cfgInt : Cfg :=
  [ { name := "A", duration := 10, interrupt := some (fun _ => some "B") },
    { name := "B" } ]

/-- `A` interrupts to `B`, whose `setup` callback calls `pause()`. -/
def cfgIntPause : Cfg :=
  [ { name := "A", duration := 10, interrupt := some (fun _ => some "B") },
    { name := "B", duration := 10, setup := some .callPause } ]

/-- A single plain 10-unit state with no transition. -/
def cfgOne : Cfg := [ { name := "A", duration := 10 } ]

/-- A self-looping state: 10 units active, 3 units `delayAfter`, a `setup`
callback, and the default always-false transition. -/
def cfgLoop : Cfg :=
  [ { name := "L", duration := 10, delayAfter := 3, loop := true,
      setup := some .noop } ]

/-- A cycle of two zero-duration states that always transition to each
other. -/
def cfgCycle : Cfg :=
  [ { name := "X", transition := .fixed "Y" },
    { name := "Y", transition := .fixed "X" } ]

/-! ## C9: `update` on a stopped instance mutates before throwing -/

/-- C9: calling `update(delta)` with `started=false` throws the not-started
error, but only after the `time` field has been advanced by
`delta*timeScale` and the `delta` field set to `delta*timeScale`: the failed
tick is not atomic. -/
theorem C9_update_not_started (cfg : Cfg) (c : AnimCore) (d : ℚ)
    (h : c.started = false) :
    Animator.update cfg c d =
      ⟨{ c with time := c.time + d * c.timeScale, delta := d * c.timeScale },
       [], some .notRunning⟩ := by
  simp [Animator.update, h]

/-- Witness for C9 at a concrete input: a fresh instance, `delta = 7`. -/
theorem C9_witness :
    (Animator.update cfgOne initCore 7).core.time = 7
    ∧ (Animator.update cfgOne initCore 7).core.delta = 7
    ∧ (Animator.update cfgOne initCore 7).err = some .notRunning := by
  have h := C9_update_not_started cfgOne initCore 7 rfl
  rw [h]
  refine ⟨by norm_num [initCore], by norm_num [initCore], rfl⟩

/-! ## C10: `start` with an unknown name on a paused instance -/

/-- C10: `start(name)` on a started-and-paused instance with `name` absent
from the state table clears the current state reference and the `paused`
flag before raising the state-not-found error, leaving `started=true` with
no current state, so a subsequent `currentState` access raises. -/
theorem C10_start_not_atomic (cfg : Cfg) (c : AnimCore) (nm : String)
    (hs : c.started = true) (hp : c.paused = true)
    (hl : lookupState cfg nm = none) :
    Animator.start cfg c nm =
      ({ c with paused := false, state := none }, some (.stateNotFound nm))
    ∧ (Animator.start cfg c nm).1.started = true
    ∧ Animator.currentState (Animator.start cfg c nm).1 = .error .notRunning := by
  have h : Animator.start cfg c nm =
      ({ c with paused := false, state := none }, some (.stateNotFound nm)) := by
    simp [Animator.start, hs, hp, hl]
  refine ⟨h, ?_, ?_⟩
  · rw [h]; exact hs
  · rw [h]; rfl

/-- Witness for C10: a started instance of `cfgOne`, paused, asked to start
the unknown state `"Z"`. -/
theorem C10_witness :
    (Animator.start cfgOne
        (Animator.pause (Animator.start cfgOne initCore "A").1).1 "Z").1.started = true
    ∧ Animator.currentState
        (Animator.start cfgOne
          (Animator.pause (Animator.start cfgOne initCore "A").1).1 "Z").1
        = .error .notRunning
    ∧ (Animator.start cfgOne
        (Animator.pause (Animator.start cfgOne initCore "A").1).1 "Z").2
        = some (.stateNotFound "Z") := by
  have h := C10_start_not_atomic cfgOne
    (Animator.pause (Animator.start cfgOne initCore "A").1).1 "Z"
    (by decide) (by decide) rfl
  exact ⟨h.2.1, h.2.2, by rw [h.1]⟩

/-! ## C6: pause / resume -/

/-- C6 counterexample: `pause()` does not mark `animating=false`.  A started,
unpaused instance in the middle of its active phase has `animating=true`;
after `pause()` the flag is still `true` (the claim says `pause()` marks
`animating=false`). -/
theorem C6_counterexample :
    (Animator.update cfgOne (Animator.start cfgOne initCore "A").1 5).core.started = true
    ∧ (Animator.update cfgOne (Animator.start cfgOne initCore "A").1 5).core.paused = false
    ∧ (Animator.update cfgOne (Animator.start cfgOne initCore "A").1 5).core.animating = true
    ∧ (Animator.pause
        (Animator.update cfgOne (Animator.start cfgOne initCore "A").1 5).core).1.animating
        = true := by
  decide

/-- C6 (amended): `pause()` is a no-op unless started and not paused;
otherwise it removes the instance from its registry, sets `paused` and
notifies `"pause"`, leaving every other field — in particular `animating` —
unchanged.  `resume()` is a no-op unless paused; otherwise it re-adds the
instance to the registry and clears `paused`.  `resume()` after `pause()`
restores the instance state exactly, so the update immediately following
resume behaves exactly as an update of the uninterrupted instance (progress
and phase position preserved, no clock reset). -/
theorem C6_pause_resume (c : AnimCore) :
    (¬ (c.started = true ∧ c.paused = false) → Animator.pause c = (c, []))
    ∧ (c.started = true → c.paused = false →
        Animator.pause c =
          ({ c with inRegistry := false, paused := true }, [.notify "pause"]))
    ∧ (c.paused = false → Animator.resume c = c)
    ∧ (c.paused = true →
        Animator.resume c = { c with inRegistry := true, paused := false })
    ∧ (c.started = true → c.paused = false → c.inRegistry = true →
        Animator.resume (Animator.pause c).1 = c
        ∧ ∀ (cfg : Cfg) (d : ℚ),
            Animator.update cfg (Animator.resume (Animator.pause c).1) d
              = Animator.update cfg c d) := by
  refine ⟨?_, ?_, ?_, ?_, ?_⟩
  · intro h
    rcases hs : c.started <;> rcases hp : c.paused <;>
      simp_all [Animator.pause]
  · intro hs hp; simp [Animator.pause, hs, hp]
  · intro hp; simp [Animator.resume, hp]
  · intro hp; simp [Animator.resume, hp]
  · intro hs hp hr
    have h1 : Animator.resume (Animator.pause c).1 = c := by
      cases c
      simp_all [Animator.pause, Animator.resume]
    exact ⟨h1, fun cfg d => by rw [h1]⟩

/-- Witness for C6 on a concrete mid-phase instance: pausing and resuming
restores the state exactly and the following `update` is unchanged. -/
theorem C6_witness :
    Animator.resume
        (Animator.pause
          (Animator.update cfgOne (Animator.start cfgOne initCore "A").1 5).core).1
      = (Animator.update cfgOne (Animator.start cfgOne initCore "A").1 5).core
    ∧ Animator.pause
          (Animator.update cfgOne (Animator.start cfgOne initCore "A").1 5).core
        = ({ (Animator.update cfgOne (Animator.start cfgOne initCore "A").1 5).core
              with inRegistry := false, paused := true }, [.notify "pause"]) := by
  have h := C6_pause_resume
    (Animator.update cfgOne (Animator.start cfgOne initCore "A").1 5).core
  exact ⟨(h.2.2.2.2 (by decide) (by decide) (by decide)).1,
         h.2.1 (by decide) (by decide)⟩

/-! ## C3: the two-state example needs two ticks, not one -/

/-- C3 counterexample: on a fresh instance, `start("A")` followed by a single
`update(10)` does **not** exhaust `A` — the first update performs phase entry
and anchors `startTime` at the post-delta clock, so afterwards
`started=true` (the claim says `started=false`) and `progress=0`. -/
theorem C3_counterexample :
    (Animator.update cfgC3 (Animator.start cfgC3 initCore "A").1 10).core.started = true
    ∧ (Animator.update cfgC3 (Animator.start cfgC3 initCore "A").1 10).core.progress = 0
    ∧ (Animator.update cfgC3 (Animator.start cfgC3 initCore "A").1 10).core.state = some "A"
    ∧ (Animator.update cfgC3 (Animator.start cfgC3 initCore "A").1 10).err = none := by
  decide

/-- C3 (amended): the first `update(10)` only performs phase entry (`A` is
anchored at clock 10, `progress=0`, `started=true`); the **second**
`update(10)` advances into `A`'s exhaustion, transitions to `B` (overflow
carries, `B`'s zero duration makes it instantly exhausted in the same tick)
and transitions to `"stop"` in the same tick, so `started=false` after the
second call. -/
theorem C3_second_update :
    (Animator.update cfgC3 (Animator.start cfgC3 initCore "A").1 10).core.started = true
    ∧ (Animator.update cfgC3
        (Animator.update cfgC3 (Animator.start cfgC3 initCore "A").1 10).core 10).core.started
        = false
    ∧ (Animator.update cfgC3
        (Animator.update cfgC3 (Animator.start cfgC3 initCore "A").1 10).core 10).core.state
        = none
    ∧ (Animator.update cfgC3
        (Animator.update cfgC3 (Animator.start cfgC3 initCore "A").1 10).core 10).evs
        = [.animation "A" 1, .notify "B", .animation "B" 1, .notify "stop"]
    ∧ (Animator.update cfgC3
        (Animator.update cfgC3 (Animator.start cfgC3 initCore "A").1 10).core 10).err
        = none := by
  decide

/-! ## C1: the final-frame guarantee -/

/-- C1 counterexample: a phase exited via an interrupt-driven transition
does **not** observe `progress=1`.  `A` (duration 10) is interrupted to `B`
at elapsed 5: the only `animation` invocation for `A` observes progress `0`,
and `A` is left (current state is `B`) without any `animation "A"`
invocation at progress 1. -/
theorem C1_counterexample :
    (Animator.update cfgInt (Animator.start cfgInt initCore "A").1 5).evs
      = [.notify "A", .animation "A" 0, .notify "B", .animation "B" 1]
    ∧ (Animator.update cfgInt (Animator.start cfgInt initCore "A").1 5).core.state
      = some "B"
    ∧ ((Animator.update cfgInt (Animator.start cfgInt initCore "A").1 5).evs.count
        (.animation "A" 1)) = 0
    ∧ (Animator.update cfgInt (Animator.start cfgInt initCore "A").1 5).err = none := by
  decide

/-! ## C5: flag re-checks after callbacks -/

/-- C5 counterexample: after an interrupt-driven transition, the target's
`setup` callback pauses the instance, yet `update` does **not** return
immediately: the state-change notification for `B` fires after the
`"pause"` notification, and resolution continues into `B`'s active phase
(its `animation` callback runs) in the same tick. -/
theorem C5_counterexample :
    (Animator.update cfgIntPause (Animator.start cfgIntPause initCore "A").1 5).evs
      = [.notify "A", .animation "A" 0, .setup "B", .notify "pause",
         .notify "B", .animation "B" 0]
    ∧ (Animator.update cfgIntPause
        (Animator.start cfgIntPause initCore "A").1 5).core.paused = true
    ∧ (Animator.update cfgIntPause
        (Animator.start cfgIntPause initCore "A").1 5).err = none := by
  decide

/-! ## C2: `startTime` anchoring on transitions -/

/-- C2: when a state's active phase is exhausted and its transition names a
next state, then: if the outgoing state was still `animating` and its
`overflow` flag is true, `startTime` advances by the outgoing state's
`duration+delayBefore+delayAfter` (carrying clock overshoot into the next
phase); if `animating` is false or `overflow` is false, the next phase
anchors exactly at the current clock; and an interrupt-driven transition
always re-anchors `startTime` to the current clock, regardless of
`overflow`. -/
theorem C2_startTime_anchoring :
    (∀ (cfg : Cfg) (current : ℚ) (c : AnimCore) (sname s : String)
       (state next : StateCfg),
      c.state = some sname →
      lookupState cfg sname = some state →
      ¬ state.delayBefore > current - c.startTime →
      (state.duration = 0
        ∨ 1 ≤ (current - (c.startTime + state.delayBefore)) / state.duration) →
      ¬ current - (c.startTime + state.delayBefore + state.duration) < state.delayAfter →
      state.transition = .fixed s →
      s ≠ "stop" → s ≠ "pause" → s ≠ "" →
      lookupState cfg s = some next →
      next.setup = none →
      c.started = true → c.paused = false →
      c.animating = true → state.overflow = true →
      updateStep cfg current c =
        .cont { c with progress := 0,
                       startTime := c.startTime + state.duration + state.delayBefore
                                    + state.delayAfter,
                       state := some s, animating := true }
          ((if c.progress = 1 then [] else [.animation sname 1]) ++ [.notify s]))
    ∧ (∀ (cfg : Cfg) (current : ℚ) (c : AnimCore) (sname s : String)
         (state next : StateCfg),
        c.state = some sname →
        lookupState cfg sname = some state →
        ¬ state.delayBefore > current - c.startTime →
        (c.animating = false ∨ state.duration = 0
          ∨ 1 ≤ (current - (c.startTime + state.delayBefore)) / state.duration) →
        ¬ current - (c.startTime + state.delayBefore + state.duration) < state.delayAfter →
        state.transition = .fixed s →
        s ≠ "stop" → s ≠ "pause" → s ≠ "" →
        lookupState cfg s = some next →
        next.setup = none →
        c.started = true → c.paused = false →
        (c.animating = false ∨ state.overflow = false) →
        updateStep cfg current c =
          .cont { c with progress := 0, startTime := current,
                         state := some s, animating := true }
            ((if c.progress = 1 then [] else [.animation sname 1]) ++ [.notify s]))
    ∧ (∀ (cfg : Cfg) (current : ℚ) (c : AnimCore) (sname s : String)
         (state next : StateCfg) (ir : AnimCore → Option String),
        c.state = some sname →
        lookupState cfg sname = some state →
        ¬ state.delayBefore > current - c.startTime →
        c.animating = true →
        state.duration ≠ 0 →
        (current - (c.startTime + state.delayBefore)) / state.duration < 1 →
        state.interrupt = some ir →
        (∀ x, ir x = some s) →
        s ≠ "stop" → s ≠ "pause" → s ≠ "" →
        lookupState cfg s = some next →
        next.setup = none →
        c.started = true →
        updateStep cfg current c =
          .cont { c with progress := 0, startTime := current,
                         state := some s, animating := true }
            [.animation sname
               ((current - (c.startTime + state.delayBefore)) / state.duration),
             .notify s]) := by
  refine ⟨?_, ?_, ?_⟩
  · intro cfg current c sname s state next hst hlk hdel hexh hhold htr hs1 hs2 hs3
      hlks hsetup hstart hpz hanim hov
    by_cases hp1 : c.progress = 1 <;>
      simp [updateStep, transDispatch, hst, hlk, hdel, hexh, htr, evalTransition, hs1,
        hs2, hs3, hlks, natTransStep, invokeSetup, hsetup, hstart, hpz, hanim, hov,
        hp1, hhold]
  · intro cfg current c sname s state next hst hlk hdel hexh hhold htr hs1 hs2 hs3
      hlks hsetup hstart hpz hnc
    rcases hnc with h | h
    · by_cases hp1 : c.progress = 1 <;>
        simp [updateStep, transDispatch, hst, hlk, hdel, h, htr, evalTransition, hs1,
          hs2, hs3, hlks, natTransStep, invokeSetup, hsetup, hstart, hpz, hp1, hhold]
    · rcases ha : c.animating with _ | _
      · by_cases hp1 : c.progress = 1 <;>
          simp [updateStep, transDispatch, hst, hlk, hdel, ha, htr, evalTransition, hs1,
            hs2, hs3, hlks, natTransStep, invokeSetup, hsetup, hstart, hpz, hp1, hhold]
      · have hexh2 : state.duration = 0
            ∨ 1 ≤ (current - (c.startTime + state.delayBefore)) / state.duration := by
          rcases hexh with h2 | h2
          · rw [ha] at h2; cases h2
          · exact h2
        by_cases hp1 : c.progress = 1 <;>
          simp [updateStep, transDispatch, hst, hlk, hdel, hexh2, htr, evalTransition,
            hs1, hs2, hs3, hlks, natTransStep, invokeSetup, hsetup, hstart, hpz, ha,
            h, hp1, hhold]
  · intro cfg current c sname s state next ir hst hlk hdel hanim hdur hplt hint hir
      hs1 hs2 hs3 hlks hsetup hstart
    have hnle : ¬ 1 ≤ (current - (c.startTime + state.delayBefore)) / state.duration :=
      not_le.mpr hplt
    simp [updateStep, intDispatch, hst, hlk, hdel, hanim, hdur, hnle, hint, hir,
      hs1, hs2, hs3, hlks, intTransStep, invokeSetup, hsetup, hstart]

/-- The duration-20 state used by the C2 witness, with its overshoot target. -/
def cfgOvf : Cfg :=
  [ { name := "A", duration := 20, transition := .fixed "B" },
    { name := "B", delayBefore := 100 } ]

/-- A `cfgOvf` instance mid-run: phase `A` anchored at clock 0, tick landing
at clock 25 (5 units past `A`'s 20-unit duration). -/
def coreOvf : AnimCore :=
  { startTime := 0, time := 25, delta := 10, progress := 3/4, state := some "A",
    animating := true, started := true, running := true, paused := false,
    inRegistry := true, timeScale := 1 }

/-- Witness for C2: a tick landing at clock 25, 5 units past a duration-20
phase anchored at 0, advances `startTime` by exactly the phase length; the
next phase is anchored 5 units "ahead" of the new `startTime`. -/
theorem C2_witness :
    updateStep cfgOvf 25 coreOvf =
      .cont { coreOvf with progress := 0, startTime := 20, state := some "B",
                           animating := true }
        [.animation "A" 1, .notify "B"]
    ∧ (25 : ℚ) - 20 = 5 := by
  constructor
  · have h := C2_startTime_anchoring.1 cfgOvf 25 coreOvf "A" "B"
      { name := "A", duration := 20, transition := .fixed "B" }
      { name := "B", delayBefore := 100 }
      rfl rfl (by norm_num [coreOvf]) (by norm_num [coreOvf]) (by norm_num [coreOvf])
      rfl (by decide) (by decide) (by decide) rfl rfl rfl rfl rfl rfl
    rw [h]
    norm_num [coreOvf]
  · norm_num

/-- C5 (amended): the `started`/`paused` re-checks around callbacks are
site-specific.  (1) After the phase-entry `setup`, a callback that called
`stop()` makes `update` return immediately (no state-change notification,
no resolution); (2) likewise a phase-entry `setup` that called `pause()`;
(3) after a natural-transition target's `setup` that called `stop()`, the
resolution step returns immediately and the target's state-change
notification is never emitted; (4) likewise for `pause()`; (5) after an
interrupt-driven transition's `setup`, only `started` is re-checked: a
`setup` that called `pause()` does not abort the tick — the target's
notification fires after the `"pause"` notification and the resolution loop
continues; (6) a `setup` there that called `stop()` does return, but the
target's notification still fires after the `"stop"` notification. -/
theorem C5_flag_rechecks :
    (∀ (cfg : Cfg) (c : AnimCore) (d : ℚ) (sname : String) (sc : StateCfg),
      c.started = true → c.running = false →
      c.state = some sname → lookupState cfg sname = some sc →
      sc.setup = some .callStop →
      Animator.update cfg c d =
        ⟨{ c with delta := d * c.timeScale, time := c.time + d * c.timeScale,
                  running := false, startTime := c.time + d * c.timeScale,
                  animating := true, started := false, progress := 0,
                  inRegistry := false, paused := false, state := none },
         [.setup sc.name, .notify "stop"], none⟩)
    ∧ (∀ (cfg : Cfg) (c : AnimCore) (d : ℚ) (sname : String) (sc : StateCfg),
        c.started = true → c.running = false → c.paused = false →
        c.state = some sname → lookupState cfg sname = some sc →
        sc.setup = some .callPause →
        Animator.update cfg c d =
          ⟨{ c with delta := d * c.timeScale, time := c.time + d * c.timeScale,
                    running := true, startTime := c.time + d * c.timeScale,
                    animating := true, started := true, progress := 0,
                    inRegistry := false, paused := true },
           [.setup sc.name, .notify "pause"], none⟩)
    ∧ (∀ (cfg : Cfg) (current : ℚ) (c : AnimCore) (sname s : String)
         (state next : StateCfg),
        c.state = some sname → lookupState cfg sname = some state →
        ¬ state.delayBefore > current - c.startTime →
        (state.duration = 0
          ∨ 1 ≤ (current - (c.startTime + state.delayBefore)) / state.duration) →
        ¬ current - (c.startTime + state.delayBefore + state.duration) < state.delayAfter →
        state.transition = .fixed s →
        s ≠ "stop" → s ≠ "pause" → s ≠ "" →
        lookupState cfg s = some next →
        next.setup = some .callStop →
        c.started = true → c.paused = false →
        c.animating = true → state.overflow = true →
        updateStep cfg current c =
          .ret { c with progress := 0,
                        startTime := c.startTime + state.duration + state.delayBefore
                                     + state.delayAfter,
                        state := none, inRegistry := false, paused := false,
                        started := false, running := false }
            ((if c.progress = 1 then [] else [.animation sname 1])
              ++ [.setup next.name, .notify "stop"]) none)
    ∧ (∀ (cfg : Cfg) (current : ℚ) (c : AnimCore) (sname s : String)
         (state next : StateCfg),
        c.state = some sname → lookupState cfg sname = some state →
        ¬ state.delayBefore > current - c.startTime →
        (state.duration = 0
          ∨ 1 ≤ (current - (c.startTime + state.delayBefore)) / state.duration) →
        ¬ current - (c.startTime + state.delayBefore + state.duration) < state.delayAfter →
        state.transition = .fixed s →
        s ≠ "stop" → s ≠ "pause" → s ≠ "" →
        lookupState cfg s = some next →
        next.setup = some .callPause →
        c.started = true → c.paused = false →
        c.animating = true → state.overflow = true →
        updateStep cfg current c =
          .ret { c with progress := 0,
                        startTime := c.startTime + state.duration + state.delayBefore
                                     + state.delayAfter,
                        state := some s, inRegistry := false, paused := true }
            ((if c.progress = 1 then [] else [.animation sname 1])
              ++ [.setup next.name, .notify "pause"]) none)
    ∧ (∀ (cfg : Cfg) (current : ℚ) (c : AnimCore) (sname s : String)
         (state next : StateCfg) (ir : AnimCore → Option String),
        c.state = some sname → lookupState cfg sname = some state →
        ¬ state.delayBefore > current - c.startTime →
        c.animating = true → state.duration ≠ 0 →
        (current - (c.startTime + state.delayBefore)) / state.duration < 1 →
        state.interrupt = some ir → (∀ x, ir x = some s) →
        s ≠ "stop" → s ≠ "pause" → s ≠ "" →
        lookupState cfg s = some next →
        next.setup = some .callPause →
        c.started = true → c.paused = false →
        updateStep cfg current c =
          .cont { c with progress := 0, startTime := current, state := some s,
                         inRegistry := false, paused := true, animating := true }
            [.animation sname
               ((current - (c.startTime + state.delayBefore)) / state.duration),
             .setup next.name, .notify "pause", .notify s])
    ∧ (∀ (cfg : Cfg) (current : ℚ) (c : AnimCore) (sname s : String)
         (state next : StateCfg) (ir : AnimCore → Option String),
        c.state = some sname → lookupState cfg sname = some state →
        ¬ state.delayBefore > current - c.startTime →
        c.animating = true → state.duration ≠ 0 →
        (current - (c.startTime + state.delayBefore)) / state.duration < 1 →
        state.interrupt = some ir → (∀ x, ir x = some s) →
        s ≠ "stop" → s ≠ "pause" → s ≠ "" →
        lookupState cfg s = some next →
        next.setup = some .callStop →
        c.started = true →
        updateStep cfg current c =
          .ret { c with progress := 0, startTime := current, state := none,
                        inRegistry := false, paused := false, started := false,
                        running := false }
            [.animation sname
               ((current - (c.startTime + state.delayBefore)) / state.duration),
             .setup next.name, .notify "stop", .notify s] none) := by
  refine ⟨?_, ?_, ?_, ?_, ?_, ?_⟩
  · intro cfg c d sname sc hstart hrun hst hlk hsetup
    simp [Animator.update, hstart, hrun, hst, hlk, invokeSetup, hsetup,
      applyEffect, Animator.stop]
  · intro cfg c d sname sc hstart hrun hpz hst hlk hsetup
    simp [Animator.update, hstart, hrun, hpz, hst, hlk, invokeSetup, hsetup,
      applyEffect, Animator.pause]
  · intro cfg current c sname s state next hst hlk hdel hexh hhold htr hs1 hs2 hs3
      hlks hsetup hstart hpz hanim hov
    by_cases hp1 : c.progress = 1 <;>
      simp [updateStep, transDispatch, hst, hlk, hdel, hexh, htr, evalTransition, hs1,
        hs2, hs3, hlks, natTransStep, invokeSetup, hsetup, applyEffect,
        Animator.stop, hstart, hpz, hanim, hov, hp1, hhold]
  · intro cfg current c sname s state next hst hlk hdel hexh hhold htr hs1 hs2 hs3
      hlks hsetup hstart hpz hanim hov
    by_cases hp1 : c.progress = 1 <;>
      simp [updateStep, transDispatch, hst, hlk, hdel, hexh, htr, evalTransition, hs1,
        hs2, hs3, hlks, natTransStep, invokeSetup, hsetup, applyEffect,
        Animator.pause, hstart, hpz, hanim, hov, hp1, hhold]
  · intro cfg current c sname s state next ir hst hlk hdel hanim hdur hplt hint hir
      hs1 hs2 hs3 hlks hsetup hstart hpz
    have hnle : ¬ 1 ≤ (current - (c.startTime + state.delayBefore)) / state.duration :=
      not_le.mpr hplt
    simp [updateStep, intDispatch, hst, hlk, hdel, hanim, hdur, hnle, hint, hir,
      hs1, hs2, hs3, hlks, intTransStep, invokeSetup, hsetup, applyEffect,
      Animator.pause, hstart, hpz]
  · intro cfg current c sname s state next ir hst hlk hdel hanim hdur hplt hint hir
      hs1 hs2 hs3 hlks hsetup hstart
    have hnle : ¬ 1 ≤ (current - (c.startTime + state.delayBefore)) / state.duration :=
      not_le.mpr hplt
    simp [updateStep, intDispatch, hst, hlk, hdel, hanim, hdur, hnle, hint, hir,
      hs1, hs2, hs3, hlks, intTransStep, invokeSetup, hsetup, applyEffect,
      Animator.stop, hstart]

/-- A state whose phase-entry `setup` callback calls `stop()`. -/
def cfgEntryStop : Cfg := [ { name := "A", duration := 10, setup := some .callStop } ]

/-- Witness for C5: on `cfgEntryStop`, the phase-entry `setup` stops the
instance and `update` returns at once with only the setup invocation and the
`"stop"` notification. -/
theorem C5_witness :
    (Animator.update cfgEntryStop (Animator.start cfgEntryStop initCore "A").1 5).err
      = none
    ∧ (Animator.update cfgEntryStop
        (Animator.start cfgEntryStop initCore "A").1 5).core.started = false
    ∧ (Animator.update cfgEntryStop
        (Animator.start cfgEntryStop initCore "A").1 5).evs
      = [.setup "A", .notify "stop"] := by
  have h := C5_flag_rechecks.1 cfgEntryStop
    (Animator.start cfgEntryStop initCore "A").1 5 "A"
    { name := "A", duration := 10, setup := some .callStop }
    (by decide) (by decide) rfl rfl rfl
  rw [h]
  exact ⟨rfl, rfl, rfl⟩

/-! ## C7: the per-tick iteration cap -/

/-- The number of events one resolution-loop iteration produced. -/
def StepOut.elen : StepOut → Nat
  | .ret _ evs _ => evs.length
  | .cont _ evs => evs.length

theorem stop_len (c : AnimCore) (b : Bool) : (Animator.stop c b).2.length ≤ 1 := by
  rcases h1 : c.started <;> rcases h2 : c.state <;> rcases b <;>
    simp [Animator.stop, h1, h2]

theorem pause_len (c : AnimCore) : (Animator.pause c).2.length ≤ 1 := by
  unfold Animator.pause
  split <;> simp

theorem invokeSetup_len (sc : StateCfg) (c : AnimCore) :
    (invokeSetup sc c).2.length ≤ 2 := by
  unfold invokeSetup
  rcases h : sc.setup with _ | eff
  · simp
  · rcases eff <;> simp [applyEffect]
    · exact stop_len _ _
    · exact pause_len _

theorem add_le_aux1 (a b : Nat) (h : b ≤ 2) : a + b ≤ a + 3 := by omega

theorem add_le_aux2 (a b : Nat) (h : b ≤ 2) : a + b + 1 ≤ a + 3 := by omega

theorem natTransStep_len (pre : Emit) (current : ℚ) (c : AnimCore)
    (state : StateCfg) (s : String) (next : StateCfg) :
    (natTransStep pre current c state s next).elen ≤ pre.length + 3 := by
  simp only [natTransStep]
  split <;> split <;>
    simp only [StepOut.elen, List.length_append, List.length_cons,
      List.length_nil] <;>
    first
      | exact add_le_aux1 _ _ (invokeSetup_len _ _)
      | exact add_le_aux2 _ _ (invokeSetup_len _ _)

theorem intTransStep_len (pre : Emit) (current : ℚ) (c : AnimCore)
    (s : String) (next : StateCfg) :
    (intTransStep pre current c s next).elen ≤ pre.length + 3 := by
  simp only [intTransStep]
  split <;>
    simp only [StepOut.elen, List.length_append, List.length_cons,
      List.length_nil] <;>
    first
      | exact add_le_aux1 _ _ (invokeSetup_len _ _)
      | exact add_le_aux2 _ _ (invokeSetup_len _ _)

theorem noTransStep_len (pre : Emit) (current : ℚ) (c : AnimCore)
    (state : StateCfg) :
    (noTransStep pre current c state).elen ≤ pre.length := by
  unfold noTransStep
  split
  · split <;> simp [StepOut.elen]
  · simp [StepOut.elen]

theorem transDispatch_len (cfg : Cfg) (pre : Emit) (current : ℚ) (c : AnimCore)
    (state : StateCfg) (o : Option String) :
    (transDispatch cfg pre current c state o).elen ≤ pre.length + 3 := by
  rcases o with _ | s
  · exact le_trans (noTransStep_len _ _ _ _) (by omega)
  · simp only [transDispatch]
    split_ifs
    · simp only [StepOut.elen, List.length_append]
      exact add_le_aux1 _ _ (le_trans (stop_len _ _) (by omega))
    · simp only [StepOut.elen, List.length_append]
      exact add_le_aux1 _ _ (le_trans (pause_len _) (by omega))
    · exact le_trans (noTransStep_len _ _ _ _) (by omega)
    · split
      · simp [StepOut.elen]
      · exact natTransStep_len _ _ _ _ _ _

theorem intDispatch_len (cfg : Cfg) (pre : Emit) (current : ℚ) (c : AnimCore)
    (o : Option String) :
    (intDispatch cfg pre current c o).elen ≤ pre.length + 3 := by
  rcases o with _ | s
  · simp [intDispatch, StepOut.elen]
  · simp only [intDispatch]
    split_ifs
    · simp only [StepOut.elen, List.length_append]
      exact add_le_aux1 _ _ (le_trans (stop_len _ _) (by omega))
    · simp only [StepOut.elen, List.length_append]
      exact add_le_aux1 _ _ (le_trans (pause_len _) (by omega))
    · simp [StepOut.elen]
    · split
      · simp [StepOut.elen]
      · exact intTransStep_len _ _ _ _ _

theorem updateStep_len (cfg : Cfg) (current : ℚ) (c : AnimCore) :
    (updateStep cfg current c).elen ≤ 4 := by
  rcases hst : c.state with _ | sname
  · simp [updateStep, hst, StepOut.elen]
  rcases hlk : lookupState cfg sname with _ | state
  · simp [updateStep, hst, hlk, StepOut.elen]
  by_cases hdel : state.delayBefore > current - c.startTime
  · simp [updateStep, hst, hlk, hdel, StepOut.elen]
  by_cases hexh : c.animating = false ∨ state.duration = 0
      ∨ 1 ≤ (current - (c.startTime + state.delayBefore)) / state.duration
  · by_cases hp1 : c.progress = 1 <;>
      by_cases hh : current - (c.startTime + state.delayBefore + state.duration)
        < state.delayAfter <;>
      simp only [updateStep, hst, hlk, hdel, hexh, hp1, hh, if_true, if_false,
        ite_true, ite_false, reduceIte, not_false_iff, iff_true] <;>
      first
        | (simp [StepOut.elen]; done)
        | (refine le_trans (transDispatch_len _ _ _ _ _ _) ?_; simp)
  · simp only [updateStep, hst, hlk, hdel, hexh, if_true, if_false, ite_true,
      ite_false, reduceIte]
    rcases hint : state.interrupt with _ | ir
    · simp [hint, StepOut.elen]
    simp only [hint]
    exact le_trans (intDispatch_len _ _ _ _ _) (by simp)

theorem resolveLoop_len (cfg : Cfg) (current : ℚ) :
    ∀ (f : Nat) (c : AnimCore), (resolveLoop cfg current f c).evs.length ≤ 4 * f := by
  intro f
  induction f with
  | zero => intro c; simp [resolveLoop]
  | succ n ih =>
    intro c
    have hs := updateStep_len cfg current c
    rcases h : updateStep cfg current c with ⟨c', evs, err⟩ | ⟨c', evs⟩ <;>
      rw [h] at hs <;> simp only [StepOut.elen] at hs <;>
      simp only [resolveLoop, h]
    · omega
    · have h2 := ih c'
      simp only [List.length_append]
      omega

theorem add_le_aux3 (a b : Nat) (ha : a ≤ 2) (hb : b ≤ 4092) :
    a + (0 + 1) + b ≤ 4096 := by omega

theorem update_len (cfg : Cfg) (c : AnimCore) (d : ℚ) :
    (Animator.update cfg c d).evs.length ≤ 4096 := by
  simp only [Animator.update]
  split
  · simp
  split
  · split
    · simp
    · split
      · simp
      · split
        · exact le_trans (invokeSetup_len _ _) (by omega)
        · simp only [List.length_append, List.length_cons, List.length_nil]
          exact add_le_aux3 _ _ (invokeSetup_len _ _)
            (le_trans (resolveLoop_len _ _ 1023 _) (by norm_num))
  · exact le_trans (resolveLoop_len _ _ 1023 _) (by norm_num)

/-- On the two-state zero-duration always-transitioning cycle, the
resolution loop transitions forever between `X` and `Y` and therefore runs
the iteration counter down to the limit error. -/
theorem cycle_resolveLoop (f : Nat) :
    ∀ (current : ℚ) (c : AnimCore),
    (c.state = some "X" ∨ c.state = some "Y") →
    c.animating = true → c.started = true → c.paused = false →
    c.startTime ≤ current →
    (resolveLoop cfgCycle current f c).err = some .iterationLimit := by
  induction f with
  | zero => intro current c _ _ _ _ _; rfl
  | succ n ih =>
    intro current c hstate hanim hstart hpz hle
    have hdel : ¬ (current - c.startTime < 0) := not_lt.mpr (by linarith)
    have hlkX : lookupState cfgCycle "X"
        = some { name := "X", transition := .fixed "Y" } := rfl
    have hlkY : lookupState cfgCycle "Y"
        = some { name := "Y", transition := .fixed "X" } := rfl
    rcases hstate with hst | hst
    · have hstep : ∃ evs, updateStep cfgCycle current c =
          .cont { c with progress := 0, state := some "Y", animating := true } evs := by
        by_cases hp1 : c.progress = 1
        · exact ⟨[.notify "Y"], by
            simp [updateStep, transDispatch, hst, hlkX, hdel, evalTransition, hlkY,
              natTransStep, invokeSetup, hstart, hpz, hanim, hp1]⟩
        · exact ⟨[.animation "X" 1, .notify "Y"], by
            simp [updateStep, transDispatch, hst, hlkX, hdel, evalTransition, hlkY,
              natTransStep, invokeSetup, hstart, hpz, hanim, hp1]⟩
      rcases hstep with ⟨evs, hstep⟩
      simp only [resolveLoop, hstep]
      exact ih current _ (Or.inr rfl) rfl hstart hpz (by simpa using hle)
    · have hstep : ∃ evs, updateStep cfgCycle current c =
          .cont { c with progress := 0, state := some "X", animating := true } evs := by
        by_cases hp1 : c.progress = 1
        · exact ⟨[.notify "X"], by
            simp [updateStep, transDispatch, hst, hlkY, hdel, evalTransition, hlkX,
              natTransStep, invokeSetup, hstart, hpz, hanim, hp1]⟩
        · exact ⟨[.animation "Y" 1, .notify "X"], by
            simp [updateStep, transDispatch, hst, hlkY, hdel, evalTransition, hlkX,
              natTransStep, invokeSetup, hstart, hpz, hanim, hp1]⟩
      rcases hstep with ⟨evs, hstep⟩
      simp only [resolveLoop, hstep]
      exact ih current _ (Or.inl rfl) rfl hstart hpz (by simpa using hle)

/-- C7: the resolution loop is bounded by a hard per-tick cap: a
misconfigured cycle of zero-duration, always-transitioning states makes
`update` raise the iteration-limit error instead of looping forever, and the
per-tick work (the number of callback invocations and notifications a single
`update` call can produce) is bounded by a fixed constant. -/
theorem C7_iteration_cap :
    (Animator.update cfgCycle (Animator.start cfgCycle initCore "X").1 1).err
      = some .iterationLimit
    ∧ ∀ (cfg : Cfg) (c : AnimCore) (d : ℚ),
        (Animator.update cfg c d).evs.length ≤ 4096 := by
  constructor
  · simp only [Animator.update, Animator.start, initCore]
    norm_num [lookupState, cfgCycle, invokeSetup]
    exact cycle_resolveLoop 1023 1 _ (Or.inl rfl) rfl rfl rfl (by norm_num)
  · intro cfg c d
    exact update_len cfg c d

/-! ## C8: batch update over the shared registry

The static `Animator.update(delta)` executes
`Animator.runningSet.forEach(x => x.update(delta))` on the **live**
`Set`.  We model the ECMAScript `Set` iteration order: an insertion-ordered
entry list in which deletion leaves a tombstone (`none`) that the iterator
skips, `add` appends a fresh entry when the value is not present, and
`forEach` walks the entry list by position, re-reading the (possibly
mutated) list at every step.  A member's own `update` may mutate the
registry arbitrarily, so the per-member effect is a parameter
`eff : Nat → List (Option Nat) → List (Option Nat)`; the second component
of the result records which instances received the tick, in order. -/

/-- The values of a registry entry list (skipping tombstones). -/
def sdMembers (s : List (Option Nat)) : List Nat := s.filterMap id

/-- `Set.prototype.add`: append when not present. -/
def sdAdd (s : List (Option Nat)) (i : Nat) : List (Option Nat) :=
  if (sdMembers s).contains i then s else s ++ [some i]

/-- `Set.prototype.delete`: tombstone every entry holding the value. -/
def sdDelete (s : List (Option Nat)) (i : Nat) : List (Option Nat) :=
  s.map (fun x => if x = some i then none else x)

/-- `Set.prototype.forEach` from entry position `k`: stop past the end of
the current list, skip tombstones, otherwise record the visit and apply the
member's effect before moving on. -/
def forEachFrom (eff : Nat → List (Option Nat) → List (Option Nat)) :
    Nat → Nat → List (Option Nat) → List Nat → List (Option Nat) × List Nat
  | 0, _, s, log => (s, log)
  | fuel + 1, k, s, log =>
    match s[k]? with
    | none => (s, log)
    | some none => forEachFrom eff fuel (k + 1) s log
    | some (some i) => forEachFrom eff fuel (k + 1) (eff i s) (log ++ [i])

/-- The static `Animator.update`: iterate the registry from position 0 (the
fuel covers the start-of-tick entries plus any additions a callback could
make this tick). -/
def batchUpdate (eff : Nat → List (Option Nat) → List (Option Nat))
    (s : List (Option Nat)) : List (Option Nat) × List Nat :=
  forEachFrom eff (s.length + 1024) 0 s []

/-- C8 counterexample: the iterated set is **not** a snapshot of
start-of-tick membership.  With registry `{0, 1}` and instance 0's update
removing instance 1 from the registry, instance 1 does not receive the
tick: the visit log is `[0]`, not the start-of-tick membership `[0, 1]`. -/
theorem C8_counterexample :
    sdMembers [some 0, some 1] = [0, 1]
    ∧ (batchUpdate (fun i s => if i = 0 then sdDelete s 1 else s)
        [some 0, some 1]).2 = [0] := by
  decide

theorem getElem?_drop_cons {α : Type} :
    ∀ (l : List α) (k : Nat) (a : α),
      l[k]? = some a → l.drop k = a :: l.drop (k + 1) := by
  intro l
  induction l with
  | nil => intro k a h; simp at h
  | cons x xs ih =>
    intro k a h
    cases k with
    | zero =>
      simp at h
      subst h
      rfl
    | succ n =>
      have h2 : xs[n]? = some a := by simpa using h
      simpa using ih n a h2

theorem forEachFrom_no_mutation
    (eff : Nat → List (Option Nat) → List (Option Nat))
    (heff : ∀ i s, eff i s = s) :
    ∀ (fuel k : Nat) (s : List (Option Nat)) (log : List Nat),
      s.length ≤ k + fuel →
      forEachFrom eff fuel k s log = (s, log ++ (s.drop k).filterMap id) := by
  intro fuel
  induction fuel with
  | zero =>
    intro k s log hle
    rw [List.drop_eq_nil_of_le (by omega)]
    simp [forEachFrom]
  | succ n ih =>
    intro k s log hle
    rcases h : s[k]? with _ | x
    · have hk : s.length ≤ k := by
        rcases lt_or_ge k s.length with hlt | hge
        · rw [List.getElem?_eq_getElem hlt] at h
          cases h
        · exact hge
      rw [List.drop_eq_nil_of_le hk]
      simp [forEachFrom, h]
    · rcases x with _ | i
      · have hd := getElem?_drop_cons s k none h
        simp only [forEachFrom, h]
        rw [ih (k + 1) s log (by omega), hd]
        simp
      · have hd := getElem?_drop_cons s k (some i) h
        simp only [forEachFrom, h, heff]
        rw [ih (k + 1) s (log ++ [i]) (by omega), hd]
        simp

/-- C8 (amended): iteration is live rather than snapshot-based — the
counterexample shows a pending member removed mid-batch is skipped — but
when no member's callback mutates registry membership, every instance in
the registry at the start of the tick receives the update exactly once, in
insertion order. -/
theorem C8_no_mutation_snapshot
    (eff : Nat → List (Option Nat) → List (Option Nat))
    (s : List (Option Nat)) (heff : ∀ i s, eff i s = s) :
    batchUpdate eff s = (s, sdMembers s) := by
  unfold batchUpdate sdMembers
  rw [forEachFrom_no_mutation eff heff (s.length + 1024) 0 s [] (by omega)]
  simp

/-- Witness for C8 on a concrete registry with a tombstone and an effect
that does not mutate membership: both members are visited once, in order. -/
theorem C8_witness :
    batchUpdate (fun _ s => s) [some 0, none, some 2]
      = ([some 0, none, some 2], [0, 2]) := by
  have h := C8_no_mutation_snapshot (fun _ s => s) [some 0, none, some 2]
    (fun _ _ => rfl)
  rw [h]
  rfl

theorem upd_running (cfg : Cfg) (c : AnimCore) (d : ℚ)
    (h1 : c.started = true) (h2 : c.running = true) :
    Animator.update cfg c d =
      resolveLoop cfg (c.time + d * c.timeScale) 1023
        { c with delta := d * c.timeScale, time := c.time + d * c.timeScale } := by
  simp [Animator.update, h1, h2]

theorem resolveLoop_of_ret {cfg : Cfg} {cur : ℚ} {c c' : AnimCore} {evs : Emit}
    {err : Option AnimError} (f : Nat) (hf : f ≠ 0)
    (h : updateStep cfg cur c = .ret c' evs err) :
    resolveLoop cfg cur f c = ⟨c', evs, err⟩ := by
  cases f with
  | zero => exact absurd rfl hf
  | succ n => simp [resolveLoop, h]

theorem resolveLoop_of_cont {cfg : Cfg} {cur : ℚ} {c c' : AnimCore} {evs : Emit}
    (f : Nat) (h : updateStep cfg cur c = .cont c' evs) :
    resolveLoop cfg cur (f + 1) c =
      ⟨(resolveLoop cfg cur f c').core, evs ++ (resolveLoop cfg cur f c').evs,
       (resolveLoop cfg cur f c').err⟩ := by
  simp [resolveLoop, h]

theorem step_active (cfg : Cfg) (current : ℚ) (c : AnimCore) (sname : String)
    (state : StateCfg)
    (hst : c.state = some sname) (hlk : lookupState cfg sname = some state)
    (hdel : ¬ state.delayBefore > current - c.startTime)
    (hanim : c.animating = true) (hdur : state.duration ≠ 0)
    (hplt : (current - (c.startTime + state.delayBefore)) / state.duration < 1)
    (hint : state.interrupt = none) :
    updateStep cfg current c =
      .ret { c with progress := (current - (c.startTime + state.delayBefore)) / state.duration }
        [.animation sname ((current - (c.startTime + state.delayBefore)) / state.duration)]
        none := by
  have hnle : ¬ 1 ≤ (current - (c.startTime + state.delayBefore)) / state.duration :=
    not_le.mpr hplt
  simp [updateStep, hst, hlk, hdel, hanim, hdur, hnle, hint]

theorem step_done (cfg : Cfg) (current : ℚ) (c : AnimCore) (sname : String)
    (state : StateCfg)
    (hst : c.state = some sname) (hlk : lookupState cfg sname = some state)
    (hdel : ¬ state.delayBefore > current - c.startTime)
    (hanim : c.animating = false)
    (hhold : ¬ current - (c.startTime + state.delayBefore + state.duration) < state.delayAfter)
    (hrule : ∀ x, evalTransition state.transition x = none)
    (hloop : state.loop = false)
    (hp1 : c.progress = 1) :
    updateStep cfg current c = .ret { c with animating := false } [] none := by
  simp [updateStep, hst, hlk, hdel, hanim, hhold, hp1, hrule, transDispatch,
    noTransStep, hloop]

theorem step_instant_halt (cfg : Cfg) (current : ℚ) (c : AnimCore) (sname : String)
    (state : StateCfg)
    (hst : c.state = some sname) (hlk : lookupState cfg sname = some state)
    (hdel : ¬ state.delayBefore > current - c.startTime)
    (hexh : c.animating = false ∨ state.duration = 0
      ∨ 1 ≤ (current - (c.startTime + state.delayBefore)) / state.duration)
    (hhold : ¬ current - (c.startTime + state.delayBefore + state.duration) < state.delayAfter)
    (hrule : ∀ x, evalTransition state.transition x = none)
    (hloop : state.loop = false)
    (hp1 : c.progress ≠ 1) :
    updateStep cfg current c =
      .ret { c with progress := 1, animating := false } [.animation sname 1] none := by
  simp [updateStep, hst, hlk, hdel, hexh, hhold, hp1, hrule, transDispatch,
    noTransStep, hloop]

theorem step_natTrans (cfg : Cfg) (current : ℚ) (c : AnimCore) (sname s : String)
    (state next : StateCfg)
    (hst : c.state = some sname)
    (hlk : lookupState cfg sname = some state)
    (hdel : ¬ state.delayBefore > current - c.startTime)
    (hexh : state.duration = 0
      ∨ 1 ≤ (current - (c.startTime + state.delayBefore)) / state.duration)
    (hhold : ¬ current - (c.startTime + state.delayBefore + state.duration) < state.delayAfter)
    (htr : state.transition = .fixed s)
    (hs1 : s ≠ "stop") (hs2 : s ≠ "pause") (hs3 : s ≠ "")
    (hlks : lookupState cfg s = some next)
    (hsetup : next.setup = none)
    (hstart : c.started = true) (hpz : c.paused = false)
    (hanim : c.animating = true) (hov : state.overflow = true) :
    updateStep cfg current c =
      .cont { c with progress := 0,
                     startTime := c.startTime + state.duration + state.delayBefore
                                  + state.delayAfter,
                     state := some s, animating := true }
        ((if c.progress = 1 then [] else [.animation sname 1]) ++ [.notify s]) := by
  by_cases hp1 : c.progress = 1 <;>
    simp [updateStep, transDispatch, hst, hlk, hdel, hexh, htr, evalTransition, hs1,
      hs2, hs3, hlks, natTransStep, invokeSetup, hsetup, hstart, hpz, hanim, hov,
      hp1, hhold]

/-! ## C1: the final-frame guarantee on `cfgAB` runs -/

/-- The normalized `A` entry of `cfgAB`. -/
def stA : StateCfg := { name := "A", duration := 10, transition := .fixed "B" }

/-- The normalized `B` entry of `cfgAB`. -/
def stB : StateCfg := { name := "B" }

/-- A `cfgAB` instance inside `A`'s active phase: anchored at `t1`, clock at
`T`, last delta `dl`. -/
def coreA (t1 T dl : ℚ) : AnimCore :=
  { startTime := t1, time := T, delta := dl, progress := (T - t1) / 10,
    state := some "A", animating := true, started := true, running := true,
    paused := false, inRegistry := true, timeScale := 1 }

/-- A `cfgAB` instance that has exhausted `A` and settled in `B`. -/
def coreB (t1 T dl : ℚ) : AnimCore :=
  { startTime := t1 + 10, time := T, delta := dl, progress := 1,
    state := some "B", animating := false, started := true, running := true,
    paused := false, inRegistry := true, timeScale := 1 }

theorem AB_stay (t1 T dl d : ℚ) (h0 : 0 ≤ T - t1) (hd : 0 ≤ d)
    (hlt : T + d - t1 < 10) :
    Animator.update cfgAB (coreA t1 T dl) d =
      ⟨coreA t1 (T + d) d, [.animation "A" ((T + d - t1) / 10)], none⟩ := by
  rw [upd_running cfgAB (coreA t1 T dl) d rfl rfl]
  simp only [coreA, mul_one]
  refine Eq.trans (resolveLoop_of_ret 1023 (by norm_num)
    (step_active _ _ _ "A" stA rfl rfl ?_ rfl ?_ ?_ rfl)) ?_
  · simp only [stA]
    push_neg
    ring_nf
    linarith
  · norm_num [stA]
  · simp only [stA]
    rw [div_lt_one (by norm_num)]
    ring_nf
    linarith
  · simp [stA]

theorem AB_exhaust (t1 T dl d : ℚ) (h0 : 0 ≤ T - t1) (hd : 0 ≤ d)
    (hlt : T - t1 < 10) (hge : 10 ≤ T + d - t1) :
    Animator.update cfgAB (coreA t1 T dl) d =
      ⟨coreB t1 (T + d) d, [.animation "A" 1, .notify "B", .animation "B" 1],
       none⟩ := by
  rw [upd_running cfgAB (coreA t1 T dl) d rfl rfl]
  have hne : (T - t1) / 10 ≠ (1 : ℚ) :=
    ne_of_lt ((div_lt_one (by norm_num)).mpr (by linarith))
  simp only [coreA, mul_one]
  have h1 := step_natTrans cfgAB (T + d)
      { startTime := t1, time := T + d, delta := d, progress := (T - t1) / 10,
        state := some "A", animating := true, started := true, running := true,
        paused := false, inRegistry := true, timeScale := 1 } "A" "B" stA stB
      rfl rfl (by simp only [stA]; push_neg; ring_nf; linarith)
      (by simp only [stA]; right
          rw [le_div_iff₀ (by norm_num : (0:ℚ) < 10)]
          ring_nf
          linarith)
      (by simp only [stA]; push_neg; ring_nf; linarith) rfl (by decide)
      (by decide) (by decide) rfl rfl rfl rfl rfl rfl
  rw [show (1023 : Nat) = 1022 + 1 from rfl, resolveLoop_of_cont 1022 h1]
  simp only [stA, add_zero, hne, if_false, ite_false, reduceIte]
  have h2 := step_instant_halt cfgAB (T + d)
      { startTime := t1 + 10, time := T + d, delta := d, progress := 0,
        state := some "B", animating := true, started := true, running := true,
        paused := false, inRegistry := true, timeScale := 1 } "B" stB rfl rfl
      (by simp only [stB]; push_neg; ring_nf; linarith) (Or.inr (Or.inl rfl))
      (by simp only [stB]; push_neg; ring_nf; linarith) (fun x => rfl) rfl
      (by norm_num)
  rw [resolveLoop_of_ret 1022 (by norm_num) h2]
  simp [stB, coreB]

theorem AB_done (t1 T dl d : ℚ) (hge : 10 ≤ T - t1) (hd : 0 ≤ d) :
    Animator.update cfgAB (coreB t1 T dl) d =
      ⟨coreB t1 (T + d) d, [], none⟩ := by
  rw [upd_running cfgAB (coreB t1 T dl) d rfl rfl]
  simp only [coreB, mul_one]
  refine Eq.trans (resolveLoop_of_ret 1023 (by norm_num)
    (step_done _ _ _ "B" stB rfl rfl ?_ rfl ?_ (fun x => rfl) rfl rfl)) ?_
  · simp only [stB]
    push_neg
    ring_nf
    linarith
  · simp only [stB]
    push_neg
    ring_nf
    linarith
  · simp [coreB]

theorem AB_entry (d : ℚ) :
    Animator.update cfgAB (Animator.start cfgAB initCore "A").1 d =
      ⟨coreA d d d, [.notify "A", .animation "A" 0], none⟩ := by
  have hlkA : lookupState cfgAB "A" = some stA := rfl
  have hstep := step_active cfgAB d (coreA d d d) "A" stA rfl rfl
      (by simp only [stA, coreA]; push_neg; ring_nf; norm_num)
      rfl (by norm_num [stA])
      (by simp only [stA, coreA]; ring_nf; norm_num)
      rfl
  have hR := resolveLoop_of_ret 1023 (by norm_num) hstep
  have hc : (⟨d, d, d, 0, some "A", true, true, true, false, true, 1⟩ : AnimCore)
      = coreA d d d := by
    simp [coreA]
  simp [Animator.update, Animator.start, initCore, hlkA, stA, invokeSetup]
  rw [hc, hR]
  simp [coreA, stA]

/-- Number of `animation` invocations of state `s` that observed
`progress = 1`. -/
def countOne (s : String) (evs : Emit) : Nat := evs.count (.animation s 1)

/-- Reachability invariant for `cfgAB` runs: the instance is either inside
`A`'s active phase with no progress-1 animation yet, or settled in `B` with
exactly one progress-1 animation for each of `A` and `B`. -/
def ABInv (p : AnimCore × Emit) : Prop :=
  (∃ t1 T dl, 0 ≤ T - t1 ∧ T - t1 < 10 ∧ p.1 = coreA t1 T dl
    ∧ countOne "A" p.2 = 0 ∧ countOne "B" p.2 = 0)
  ∨ (∃ t1 T dl, 10 ≤ T - t1 ∧ p.1 = coreB t1 T dl
    ∧ countOne "A" p.2 = 1 ∧ countOne "B" p.2 = 1)

theorem ABInv_step (c : AnimCore) (evs : Emit) (d : ℚ) (hd : 0 ≤ d)
    (h : ABInv (c, evs)) :
    (Animator.update cfgAB c d).err = none
    ∧ ABInv ((Animator.update cfgAB c d).core,
        evs ++ (Animator.update cfgAB c d).evs) := by
  rcases h with ⟨t1, T, dl, h0, hlt, hc, hA, hB⟩ | ⟨t1, T, dl, hge, hc, hA, hB⟩
  · simp only at hc
    subst hc
    by_cases hx : T + d - t1 < 10
    · rw [AB_stay t1 T dl d h0 hd hx]
      have hne : (T + d - t1) / 10 ≠ (1 : ℚ) :=
        ne_of_lt ((div_lt_one (by norm_num)).mpr (by linarith))
      refine ⟨rfl, Or.inl ⟨t1, T + d, d, by linarith, by linarith, rfl, ?_, ?_⟩⟩
      · simp only at hA ⊢
        simp [countOne, List.count_append] at hA ⊢
        refine ⟨hA, ?_⟩
        rw [List.count_eq_zero]
        intro hmem
        rw [List.mem_singleton] at hmem
        injection hmem with _ h2
        exact hne h2.symm
      · simp only at hB ⊢
        simp [countOne, List.count_append] at hB ⊢
        exact hB
    · push_neg at hx
      rw [AB_exhaust t1 T dl d h0 hd hlt hx]
      refine ⟨rfl, Or.inr ⟨t1, T + d, d, by linarith, rfl, ?_, ?_⟩⟩
      · simp only at hA ⊢
        rw [countOne, List.count_append]
        rw [countOne] at hA
        rw [hA]
        decide
      · simp only at hB ⊢
        rw [countOne, List.count_append]
        rw [countOne] at hB
        rw [hB]
        decide
  · simp only at hc
    subst hc
    rw [AB_done t1 T dl d hge hd]
    refine ⟨rfl, Or.inr ⟨t1, T + d, d, by linarith, rfl, ?_, ?_⟩⟩
    · simpa [countOne] using hA
    · simpa [countOne] using hB

theorem ABInv_run :
    ∀ (ds : List ℚ), (∀ x ∈ ds, 0 ≤ x) → ∀ (c : AnimCore) (evs : Emit),
      ABInv (c, evs) → ABInv (runUpdates cfgAB (c, evs) ds) := by
  intro ds
  induction ds with
  | nil => intro _ c evs h; simpa [runUpdates] using h
  | cons d rest ih =>
    intro hds c evs h
    have hstep := ABInv_step c evs d (hds d (by simp)) h
    simp only [runUpdates, hstep.1]
    exact ih (fun x hx => hds x (by simp [hx])) _ _ hstep.2

/-- C1 (amended): on `cfgAB` (state `A`, duration 10, natural transition to
the zero-duration sink `B`), over any sequence of non-negative tick deltas
from a fresh `start("A")`: `A`'s `animation` callback observes `progress=1`
at most once; it observes it exactly once — and `B`'s exactly once, `B`
being a non-loop `duration=0` state — precisely when the phase has been
left (the instance reached `B`); while still inside `A`'s phase no
`progress=1` invocation has happened.  (The interrupt clause of the original
claim is refuted by `C1_counterexample`: an interrupt exit's final
`animation` call observes the in-flight progress, not 1.) -/
theorem C1_final_frame (ds : List ℚ) (hds : ∀ x ∈ ds, 0 ≤ x) :
    (runUpdates cfgAB ((Animator.start cfgAB initCore "A").1, []) ds).2.count
        (.animation "A" 1) ≤ 1
    ∧ ((runUpdates cfgAB ((Animator.start cfgAB initCore "A").1, []) ds).1.state
          = some "B" →
        (runUpdates cfgAB ((Animator.start cfgAB initCore "A").1, []) ds).2.count
            (.animation "A" 1) = 1
        ∧ (runUpdates cfgAB ((Animator.start cfgAB initCore "A").1, []) ds).2.count
            (.animation "B" 1) = 1)
    ∧ ((runUpdates cfgAB ((Animator.start cfgAB initCore "A").1, []) ds).1.state
          = some "A" →
        (runUpdates cfgAB ((Animator.start cfgAB initCore "A").1, []) ds).2.count
            (.animation "A" 1) = 0) := by
  cases ds with
  | nil =>
    refine ⟨by simp [runUpdates], ?_, ?_⟩
    · intro hB
      exact absurd hB (by decide)
    · intro _
      simp [runUpdates]
  | cons d rest =>
    have hd : 0 ≤ d := hds d (by simp)
    have hInv0 : ABInv (coreA d d d, [] ++ [Ev.notify "A", Ev.animation "A" 0]) :=
      Or.inl ⟨d, d, d, by norm_num, by norm_num, rfl,
        (by decide : countOne "A" ([] ++ [Ev.notify "A", Ev.animation "A" 0]) = 0),
        (by decide : countOne "B" ([] ++ [Ev.notify "A", Ev.animation "A" 0]) = 0)⟩
    have hrun := ABInv_run rest (fun x hx => hds x (by simp [hx])) _ _ hInv0
    have hexp : runUpdates cfgAB ((Animator.start cfgAB initCore "A").1, []) (d :: rest)
        = runUpdates cfgAB (coreA d d d, [] ++ [Ev.notify "A", Ev.animation "A" 0]) rest := by
      simp only [runUpdates, AB_entry d]
    rw [hexp]
    rcases hrun with ⟨t1, T, dl, _, _, hc, hA, hB⟩ | ⟨t1, T, dl, _, hc, hA, hB⟩ <;>
      simp only [countOne] at hA hB
    · refine ⟨le_trans (le_of_eq hA) (by norm_num), ?_, fun _ => hA⟩
      intro hBstate
      rw [hc] at hBstate
      simp [coreA] at hBstate
    · refine ⟨le_of_eq hA, fun _ => ⟨hA, hB⟩, ?_⟩
      intro hAstate
      rw [hc] at hAstate
      simp [coreB] at hAstate

/-- Witness for C1 at the concrete tick sequence `[10, 5]`. -/
theorem C1_witness :
    (∀ x ∈ ([10, 5] : List ℚ), 0 ≤ x)
    ∧ ((runUpdates cfgAB ((Animator.start cfgAB initCore "A").1, []) [10, 5]).2.count
          (.animation "A" 1) ≤ 1
        ∧ ((runUpdates cfgAB ((Animator.start cfgAB initCore "A").1, []) [10, 5]).1.state
              = some "B" →
            (runUpdates cfgAB ((Animator.start cfgAB initCore "A").1, []) [10, 5]).2.count
                (.animation "A" 1) = 1
            ∧ (runUpdates cfgAB ((Animator.start cfgAB initCore "A").1, []) [10, 5]).2.count
                (.animation "B" 1) = 1)
        ∧ ((runUpdates cfgAB ((Animator.start cfgAB initCore "A").1, []) [10, 5]).1.state
              = some "A" →
            (runUpdates cfgAB ((Animator.start cfgAB initCore "A").1, []) [10, 5]).2.count
                (.animation "A" 1) = 0)) := by
  have hds : ∀ x ∈ ([10, 5] : List ℚ), 0 ≤ x := by
    intro x hx
    rcases List.mem_cons.mp hx with h | h
    · rw [h]; norm_num
    · rw [List.mem_singleton] at h; rw [h]; norm_num
  exact ⟨hds, C1_final_frame [10, 5] hds⟩

theorem step_hold (cfg : Cfg) (current : ℚ) (c : AnimCore) (sname : String)
    (state : StateCfg)
    (hst : c.state = some sname) (hlk : lookupState cfg sname = some state)
    (hdel : ¬ state.delayBefore > current - c.startTime)
    (hexh : c.animating = false ∨ state.duration = 0
      ∨ 1 ≤ (current - (c.startTime + state.delayBefore)) / state.duration)
    (hhold : current - (c.startTime + state.delayBefore + state.duration) < state.delayAfter) :
    updateStep cfg current c =
      .ret (if c.progress = 1 then c else { c with progress := 1 })
        (if c.progress = 1 then [] else [.animation sname 1]) none := by
  by_cases hp1 : c.progress = 1 <;>
    simp [updateStep, hst, hlk, hdel, hexh, hhold, hp1]

theorem step_loopReset (cfg : Cfg) (current : ℚ) (c : AnimCore) (sname : String)
    (state : StateCfg)
    (hst : c.state = some sname) (hlk : lookupState cfg sname = some state)
    (hdel : ¬ state.delayBefore > current - c.startTime)
    (hexh : c.animating = false ∨ state.duration = 0
      ∨ 1 ≤ (current - (c.startTime + state.delayBefore)) / state.duration)
    (hhold : ¬ current - (c.startTime + state.delayBefore + state.duration) < state.delayAfter)
    (hrule : ∀ x, evalTransition state.transition x = none)
    (hloop : state.loop = true) (hdur : ¬ state.duration ≤ 0) :
    updateStep cfg current c =
      .cont { c with progress := 0,
                     startTime := c.startTime + state.duration + state.delayAfter }
        (if c.progress = 1 then [] else [.animation sname 1]) := by
  by_cases hp1 : c.progress = 1 <;>
    simp [updateStep, hst, hlk, hdel, hexh, hhold, hp1, hrule, transDispatch,
      noTransStep, hloop, hdur]

theorem step_loopZero (cfg : Cfg) (current : ℚ) (c : AnimCore) (sname : String)
    (state : StateCfg)
    (hst : c.state = some sname) (hlk : lookupState cfg sname = some state)
    (hdel : ¬ state.delayBefore > current - c.startTime)
    (hhold : ¬ current - (c.startTime + state.delayBefore + state.duration) < state.delayAfter)
    (hrule : ∀ x, evalTransition state.transition x = none)
    (hloop : state.loop = true) (hdur : state.duration = 0) :
    updateStep cfg current c =
      .ret { c with progress := 0, startTime := current - state.delayBefore }
        (if c.progress = 1 then [] else [.animation sname 1]) none := by
  have hhold2 : ¬ current - (c.startTime + state.delayBefore) < state.delayAfter := by
    rw [hdur, add_zero] at hhold
    exact hhold
  by_cases hp1 : c.progress = 1 <;>
    simp [updateStep, hst, hlk, hdel, hhold2, hp1, hrule, transDispatch,
      noTransStep, hloop, hdur]

/-- The normalized `L` entry of `cfgLoop`. -/
def stL : StateCfg :=
  { name := "L", duration := 10, delayAfter := 3, loop := true,
    setup := some .noop }

/-- A `cfgLoop` instance inside `L`'s active phase (cycle anchored at `a`). -/
def coreLA (a T dl : ℚ) : AnimCore :=
  { startTime := a, time := T, delta := dl, progress := (T - a) / 10,
    state := some "L", animating := true, started := true, running := true,
    paused := false, inRegistry := true, timeScale := 1 }

/-- A `cfgLoop` instance inside `L`'s `delayAfter` hold window. -/
def coreLH (a T dl : ℚ) : AnimCore :=
  { startTime := a, time := T, delta := dl, progress := 1,
    state := some "L", animating := true, started := true, running := true,
    paused := false, inRegistry := true, timeScale := 1 }

theorem L_entry (d : ℚ) :
    Animator.update cfgLoop (Animator.start cfgLoop initCore "L").1 d =
      ⟨coreLA d d d, [.setup "L", .notify "L", .animation "L" 0], none⟩ := by
  have hlkL : lookupState cfgLoop "L" = some stL := rfl
  have hstep := step_active cfgLoop d (coreLA d d d) "L" stL rfl rfl
      (by simp only [stL, coreLA]; push_neg; ring_nf; norm_num)
      rfl (by norm_num [stL])
      (by simp only [stL, coreLA]; ring_nf; norm_num)
      rfl
  have hR := resolveLoop_of_ret 1023 (by norm_num) hstep
  have hc : (⟨d, d, d, 0, some "L", true, true, true, false, true, 1⟩ : AnimCore)
      = coreLA d d d := by
    simp [coreLA]
  simp [Animator.update, Animator.start, initCore, hlkL, stL, invokeSetup,
    applyEffect]
  rw [hc, hR]
  simp [coreLA, stL]

theorem L_stay (a T dl d : ℚ) (h0 : 0 ≤ T - a) (hd : 0 ≤ d)
    (hlt : T + d - a < 10) :
    Animator.update cfgLoop (coreLA a T dl) d =
      ⟨coreLA a (T + d) d, [.animation "L" ((T + d - a) / 10)], none⟩ := by
  rw [upd_running cfgLoop (coreLA a T dl) d rfl rfl]
  simp only [coreLA, mul_one]
  refine Eq.trans (resolveLoop_of_ret 1023 (by norm_num)
    (step_active _ _ _ "L" stL rfl rfl ?_ rfl ?_ ?_ rfl)) ?_
  · simp only [stL]
    push_neg
    ring_nf
    linarith
  · norm_num [stL]
  · simp only [stL]
    rw [div_lt_one (by norm_num)]
    ring_nf
    linarith
  · simp [stL]

theorem L_toHold (a T dl d : ℚ) (h0 : 0 ≤ T - a) (hd : 0 ≤ d)
    (hlt : T - a < 10) (h10 : 10 ≤ T + d - a) (h13 : T + d - a < 13) :
    Animator.update cfgLoop (coreLA a T dl) d =
      ⟨coreLH a (T + d) d, [.animation "L" 1], none⟩ := by
  rw [upd_running cfgLoop (coreLA a T dl) d rfl rfl]
  have hne : (T - a) / 10 ≠ (1 : ℚ) :=
    ne_of_lt ((div_lt_one (by norm_num)).mpr (by linarith))
  simp only [coreLA, mul_one]
  refine Eq.trans (resolveLoop_of_ret 1023 (by norm_num)
    (step_hold _ _ _ "L" stL rfl rfl ?_ ?_ ?_)) ?_
  · simp only [stL]
    push_neg
    ring_nf
    linarith
  · simp only [stL]
    right
    right
    rw [le_div_iff₀ (by norm_num : (0:ℚ) < 10)]
    ring_nf
    linarith
  · simp only [stL]
    ring_nf
    linarith
  · simp [hne, coreLH, stL]

theorem L_wrapActive (a T dl d : ℚ) (h0 : 0 ≤ T - a) (hd : 0 ≤ d)
    (hlt : T - a < 10) (h13 : 13 ≤ T + d - a) (h23 : T + d - a < 23) :
    Animator.update cfgLoop (coreLA a T dl) d =
      ⟨coreLA (a + 13) (T + d) d,
       [.animation "L" 1, .animation "L" ((T + d - (a + 13)) / 10)], none⟩ := by
  rw [upd_running cfgLoop (coreLA a T dl) d rfl rfl]
  have hne : (T - a) / 10 ≠ (1 : ℚ) :=
    ne_of_lt ((div_lt_one (by norm_num)).mpr (by linarith))
  simp only [coreLA, mul_one]
  have h1 := step_loopReset cfgLoop (T + d)
      { startTime := a, time := T + d, delta := d, progress := (T - a) / 10,
        state := some "L", animating := true, started := true, running := true,
        paused := false, inRegistry := true, timeScale := 1 } "L" stL rfl rfl
      (by simp only [stL]; push_neg; ring_nf; linarith)
      (by simp only [stL]; right; right
          rw [le_div_iff₀ (by norm_num : (0:ℚ) < 10)]
          ring_nf
          linarith)
      (by simp only [stL]; push_neg; ring_nf; linarith)
      (fun x => rfl) rfl (by norm_num [stL])
  rw [show (1023 : Nat) = 1022 + 1 from rfl, resolveLoop_of_cont 1022 h1]
  simp only [stL, hne, if_false, ite_false, reduceIte]
  have h2 := step_active cfgLoop (T + d)
      { startTime := a + 10 + 3, time := T + d, delta := d, progress := 0,
        state := some "L", animating := true, started := true, running := true,
        paused := false, inRegistry := true, timeScale := 1 } "L" stL rfl rfl
      (by simp only [stL]; push_neg; ring_nf; linarith)
      rfl (by norm_num [stL])
      (by simp only [stL]; rw [div_lt_one (by norm_num)]; ring_nf; linarith)
      rfl
  rw [resolveLoop_of_ret 1022 (by norm_num) h2]
  simp [stL, coreLA]
  and_intros <;> ring_nf

theorem L_holdStay (a T dl d : ℚ) (h10 : 10 ≤ T - a) (hd : 0 ≤ d)
    (h13 : T + d - a < 13) :
    Animator.update cfgLoop (coreLH a T dl) d =
      ⟨coreLH a (T + d) d, [], none⟩ := by
  rw [upd_running cfgLoop (coreLH a T dl) d rfl rfl]
  simp only [coreLH, mul_one]
  refine Eq.trans (resolveLoop_of_ret 1023 (by norm_num)
    (step_hold _ _ _ "L" stL rfl rfl ?_ ?_ ?_)) ?_
  · simp only [stL]
    push_neg
    ring_nf
    linarith
  · simp only [stL]
    right
    right
    rw [le_div_iff₀ (by norm_num : (0:ℚ) < 10)]
    ring_nf
    linarith
  · simp only [stL]
    ring_nf
    linarith
  · simp [coreLH, stL]

theorem L_wrapHoldActive (a T dl d : ℚ) (h10 : 10 ≤ T - a) (hd : 0 ≤ d)
    (hlt : T - a < 13) (h13 : 13 ≤ T + d - a) (h23 : T + d - a < 23) :
    Animator.update cfgLoop (coreLH a T dl) d =
      ⟨coreLA (a + 13) (T + d) d,
       [.animation "L" ((T + d - (a + 13)) / 10)], none⟩ := by
  rw [upd_running cfgLoop (coreLH a T dl) d rfl rfl]
  simp only [coreLH, mul_one]
  have h1 := step_loopReset cfgLoop (T + d)
      { startTime := a, time := T + d, delta := d, progress := 1,
        state := some "L", animating := true, started := true, running := true,
        paused := false, inRegistry := true, timeScale := 1 } "L" stL rfl rfl
      (by simp only [stL]; push_neg; ring_nf; linarith)
      (by simp only [stL]; right; right
          rw [le_div_iff₀ (by norm_num : (0:ℚ) < 10)]
          ring_nf
          linarith)
      (by simp only [stL]; push_neg; ring_nf; linarith)
      (fun x => rfl) rfl (by norm_num [stL])
  rw [show (1023 : Nat) = 1022 + 1 from rfl, resolveLoop_of_cont 1022 h1]
  simp only [stL, if_true, ite_true, reduceIte]
  have h2 := step_active cfgLoop (T + d)
      { startTime := a + 10 + 3, time := T + d, delta := d, progress := 0,
        state := some "L", animating := true, started := true, running := true,
        paused := false, inRegistry := true, timeScale := 1 } "L" stL rfl rfl
      (by simp only [stL]; push_neg; ring_nf; linarith)
      rfl (by norm_num [stL])
      (by simp only [stL]; rw [div_lt_one (by norm_num)]; ring_nf; linarith)
      rfl
  rw [resolveLoop_of_ret 1022 (by norm_num) h2]
  simp [stL, coreLA]
  and_intros <;> ring_nf

theorem L_wrapHoldHold (a T dl d : ℚ) (h10 : 10 ≤ T - a) (hd : 0 ≤ d)
    (hlt : T - a < 13) (h23 : 23 ≤ T + d - a) (h26 : T + d - a < 26) :
    Animator.update cfgLoop (coreLH a T dl) d =
      ⟨coreLH (a + 13) (T + d) d, [.animation "L" 1], none⟩ := by
  rw [upd_running cfgLoop (coreLH a T dl) d rfl rfl]
  simp only [coreLH, mul_one]
  have h1 := step_loopReset cfgLoop (T + d)
      { startTime := a, time := T + d, delta := d, progress := 1,
        state := some "L", animating := true, started := true, running := true,
        paused := false, inRegistry := true, timeScale := 1 } "L" stL rfl rfl
      (by simp only [stL]; push_neg; ring_nf; linarith)
      (by simp only [stL]; right; right
          rw [le_div_iff₀ (by norm_num : (0:ℚ) < 10)]
          ring_nf
          linarith)
      (by simp only [stL]; push_neg; ring_nf; linarith)
      (fun x => rfl) rfl (by norm_num [stL])
  rw [show (1023 : Nat) = 1022 + 1 from rfl, resolveLoop_of_cont 1022 h1]
  simp only [stL, if_true, ite_true, reduceIte]
  have h2 := step_hold cfgLoop (T + d)
      { startTime := a + 10 + 3, time := T + d, delta := d, progress := 0,
        state := some "L", animating := true, started := true, running := true,
        paused := false, inRegistry := true, timeScale := 1 } "L" stL rfl rfl
      (by simp only [stL]; push_neg; ring_nf; linarith)
      (by simp only [stL]; right; right
          rw [le_div_iff₀ (by norm_num : (0:ℚ) < 10)]
          ring_nf
          linarith)
      (by simp only [stL]; ring_nf; linarith)
  rw [resolveLoop_of_ret 1022 (by norm_num) h2]
  simp [stL, coreLH]
  ring_nf

/-- Reachability invariant for `cfgLoop` runs anchored at `t1`: after `n`
loop resets the cycle anchor is `t1 + 13*n` (13 = duration 10 + delayAfter 3),
the instance is in the active or hold window of the current cycle, and the
`setup` callback has been invoked exactly once. -/
def LInv (t1 : ℚ) (p : AnimCore × Emit) : Prop :=
  ∃ (n : ℕ) (T dl : ℚ),
    ((p.1 = coreLA (t1 + 13 * n) T dl ∧ 0 ≤ T - (t1 + 13 * n)
        ∧ T - (t1 + 13 * n) < 10)
      ∨ (p.1 = coreLH (t1 + 13 * n) T dl ∧ 10 ≤ T - (t1 + 13 * n)
        ∧ T - (t1 + 13 * n) < 13))
    ∧ p.2.count (.setup "L") = 1

theorem LInv_step (t1 : ℚ) (c : AnimCore) (evs : Emit) (d : ℚ)
    (hd0 : 0 ≤ d) (hd13 : d ≤ 13) (h : LInv t1 (c, evs)) :
    (Animator.update cfgLoop c d).err = none
    ∧ LInv t1 ((Animator.update cfgLoop c d).core,
        evs ++ (Animator.update cfgLoop c d).evs) := by
  obtain ⟨n, T, dl, hshape, hcount⟩ := h
  simp only at hcount
  have hcast : (↑(n + 1) : ℚ) = (n : ℚ) + 1 := by push_cast; ring
  rcases hshape with ⟨hc, h0, hlt⟩ | ⟨hc, h10, hlt⟩ <;> simp only at hc <;> subst hc
  · by_cases hx1 : T + d - (t1 + 13 * n) < 10
    · rw [L_stay _ T dl d h0 hd0 hx1]
      refine ⟨rfl, n, T + d, d, Or.inl ⟨rfl, by linarith, by linarith⟩, ?_⟩
      simp [List.count_append, hcount]
    · by_cases hx2 : T + d - (t1 + 13 * n) < 13
      · rw [L_toHold _ T dl d h0 hd0 hlt (by linarith) hx2]
        refine ⟨rfl, n, T + d, d, Or.inr ⟨rfl, by linarith, by linarith⟩, ?_⟩
        simp [List.count_append, hcount]
      · rw [L_wrapActive _ T dl d h0 hd0 hlt (by linarith) (by linarith)]
        refine ⟨rfl, n + 1, T + d, d, Or.inl ⟨?_, ?_, ?_⟩, ?_⟩
        · rw [hcast]; ring_nf
        · rw [hcast]; push_cast; linarith
        · rw [hcast]; push_cast; linarith
        · simp [List.count_append, hcount]
  · by_cases hx1 : T + d - (t1 + 13 * n) < 13
    · rw [L_holdStay _ T dl d h10 hd0 hx1]
      refine ⟨rfl, n, T + d, d, Or.inr ⟨rfl, by linarith, by linarith⟩, ?_⟩
      simp [List.count_append, hcount]
    · by_cases hx2 : T + d - (t1 + 13 * n) < 23
      · rw [L_wrapHoldActive _ T dl d h10 hd0 hlt (by linarith) hx2]
        refine ⟨rfl, n + 1, T + d, d, Or.inl ⟨?_, ?_, ?_⟩, ?_⟩
        · rw [hcast]; ring_nf
        · rw [hcast]; push_cast; linarith
        · rw [hcast]; push_cast; linarith
        · simp [List.count_append, hcount]
      · rw [L_wrapHoldHold _ T dl d h10 hd0 hlt (by linarith) (by linarith)]
        refine ⟨rfl, n + 1, T + d, d, Or.inr ⟨?_, ?_, ?_⟩, ?_⟩
        · rw [hcast]; ring_nf
        · rw [hcast]; push_cast; linarith
        · rw [hcast]; push_cast; linarith
        · simp [List.count_append, hcount]

theorem LInv_run (t1 : ℚ) :
    ∀ (ds : List ℚ), (∀ x ∈ ds, 0 ≤ x ∧ x ≤ 13) →
      ∀ (c : AnimCore) (evs : Emit),
      LInv t1 (c, evs) → LInv t1 (runUpdates cfgLoop (c, evs) ds) := by
  intro ds
  induction ds with
  | nil => intro _ c evs h; simpa [runUpdates] using h
  | cons d rest ih =>
    intro hds c evs h
    have hd := hds d (by simp)
    have hstep := LInv_step t1 c evs d hd.1 hd.2 h
    simp only [runUpdates, hstep.1]
    exact ih (fun x hx => hds x (by simp [hx])) _ _ hstep.2

/-- A full `cfgLoop` session: `start "L"`, a first tick of `d`, then ticks `ds`. -/
def loopRun (d : ℚ) (ds : List ℚ) : AnimCore × Emit :=
  runUpdates cfgLoop
    ((Animator.update cfgLoop (Animator.start cfgLoop initCore "L").1 d).core,
     (Animator.update cfgLoop (Animator.start cfgLoop initCore "L").1 d).evs) ds

/-- C4: a state with loop=true, duration D>0 and an always-false transition
cycles indefinitely: across any run whose ticks are at most one full cycle
(duration 10 + delayAfter 3 = 13), the instance stays started and animating in
state "L", the `setup` callback has been invoked exactly once (at true state
entry, never again across loop resets), and `startTime` always equals the entry
anchor advanced by a whole number of `duration + delayAfter` cycles (loop resets
skip `delayBefore`, and each reset restarts `progress` from the reset anchor).
Moreover (zero-duration clause) a loop state with duration=0 merely re-anchors
`startTime` to `current - delayBefore` and returns for the tick instead of
spinning. -/
theorem C4_loop_cycles (d : ℚ) (ds : List ℚ)
    (hds : ∀ x ∈ ds, 0 ≤ x ∧ x ≤ 13) :
    ((loopRun d ds).1.started = true
      ∧ (loopRun d ds).1.state = some "L"
      ∧ (loopRun d ds).1.animating = true
      ∧ (loopRun d ds).2.count (.setup "L") = 1
      ∧ ∃ n : ℕ, (loopRun d ds).1.startTime = d + 13 * n)
    ∧ (∀ (cfg : Cfg) (current : ℚ) (c : AnimCore) (sname : String)
        (state : StateCfg),
        c.state = some sname → lookupState cfg sname = some state →
        ¬ state.delayBefore > current - c.startTime →
        ¬ current - (c.startTime + state.delayBefore + state.duration)
            < state.delayAfter →
        (∀ x, evalTransition state.transition x = none) →
        state.loop = true → state.duration = 0 →
        updateStep cfg current c =
          .ret { c with progress := 0,
                        startTime := current - state.delayBefore }
            (if c.progress = 1 then [] else [.animation sname 1]) none) := by
  constructor
  · have hinit : LInv d
        ((Animator.update cfgLoop (Animator.start cfgLoop initCore "L").1 d).core,
         (Animator.update cfgLoop (Animator.start cfgLoop initCore "L").1 d).evs) := by
      rw [L_entry]
      exact ⟨0, d, d, Or.inl ⟨by norm_num [coreLA], by norm_num, by norm_num⟩,
        by rfl⟩
    have hrun := LInv_run d ds hds _ _ hinit
    obtain ⟨n, T, dl, hshape, hcount⟩ := hrun
    simp only [loopRun]
    refine ⟨?_, ?_, ?_, hcount, n, ?_⟩ <;>
      rcases hshape with ⟨hc, -, -⟩ | ⟨hc, -, -⟩ <;>
      simp [hc, coreLA, coreLH]
  · intro cfg current c sname state h1 h2 h3 h4 h5 h6 h7
    exact step_loopZero cfg current c sname state h1 h2 h3 h4 h5 h6 h7

theorem C4_witness :
    (∀ x ∈ ([4, 4, 4, 4] : List ℚ), 0 ≤ x ∧ x ≤ 13)
    ∧ ((loopRun 4 [4, 4, 4, 4]).1.started = true
      ∧ (loopRun 4 [4, 4, 4, 4]).1.state = some "L"
      ∧ (loopRun 4 [4, 4, 4, 4]).1.animating = true
      ∧ (loopRun 4 [4, 4, 4, 4]).2.count (.setup "L") = 1
      ∧ ∃ n : ℕ, (loopRun 4 [4, 4, 4, 4]).1.startTime = 4 + 13 * n) :=
  ⟨by norm_num, (C4_loop_cycles 4 [4, 4, 4, 4] (by norm_num)).1⟩
